import Mathlib

/-!
Shallow embedding of the GLM-130B evaluation/inference pipeline
(`examples/glm-130B/evaluation/dataset.py`, `evaluation/model.py`,
`inference.py`) and proofs about it.

Token ids are natural numbers (except in the splicing driver, where the
`-1` sentinel of `filling_sequence` forces integers).  NumPy arrays become
Lean lists; square NumPy matrices become `FMat`, a function representation
carrying its dimensions.  Fallible Python code (assertions, negative pad
widths) returns `Except`.
-/

/-- A matrix in function representation, as produced by `np.ones`,
`np.tril`, `scipy.linalg.block_diag` and slice assignments.  `entry r c`
is meaningful for `r < rows` and `c < cols`. -/
structure FMat where
  rows : Nat
  cols : Nat
  entry : Nat → Nat → Nat

/-- `np.ones((n, n))`. -/
def onesF (n : Nat) : FMat := ⟨n, n, fun _ _ => 1⟩

/-- `np.tril(np.ones((n, n)))`: lower-triangular ones. -/
def trilF (n : Nat) : FMat := ⟨n, n, fun r c => if c ≤ r then 1 else 0⟩

/-- Block-diagonal composition of two matrices (`scipy.linalg.block_diag`
for two blocks): off-diagonal blocks are zero. -/
def blockDiag2 (A B : FMat) : FMat :=
  ⟨A.rows + B.rows, A.cols + B.cols, fun r c =>
    if r < A.rows then (if c < A.cols then A.entry r c else 0)
    else (if c < A.cols then 0 else B.entry (r - A.rows) (c - A.cols))⟩

/-- `scipy.linalg.block_diag(*blocks)` over a list of blocks. -/
def blockDiagL : List FMat → FMat
  | [] => ⟨0, 0, fun _ _ => 0⟩
  | m :: ms => blockDiag2 m (blockDiagL ms)

/-- Elementwise `x < 0.5` on an integer-valued array entry, as applied to
the 0/1 visibility matrices before they are handed to the model
(`attention_mask < 0.5` in `build_generation_sample` and `collate_fn`). -/
def lt_half (v : Nat) : Bool := decide ((v : ℚ) < 1/2)

/-! ## `GenerationTaskDataset.build_generation_sample` -/

/-- Failures of the sequence encoders: a failed `assert` on mutually
exclusive options, or `np.zeros(negative)` when the token sequence
exceeds `max_seq_length`. -/
inductive EncodeError where
  | ConfigConflict : EncodeError
  | SequenceTooLong : EncodeError
deriving DecidableEq, Repr

/-- The visibility matrix of `build_generation_sample`:
`np.tril(np.ones((max_seq_length, max_seq_length)))`, and when not
unidirectional the block `[: context_length - 1, : context_length - 1]`
is set to 1. -/
def gen_visibility (max_seq_length context_length : Nat) (unidirectional : Bool) : FMat :=
  ⟨max_seq_length, max_seq_length, fun r c =>
    if ¬unidirectional ∧ r < context_length - 1 ∧ c < context_length - 1 then 1
    else if c ≤ r then 1 else 0⟩

/-- The item dict returned by `build_generation_sample`.  `attention_mask`
is the boolean matrix actually stored in the item, i.e. the visibility
matrix compared `< 0.5`. -/
structure GenSample where
  tokens : List Nat
  position_ids : List Nat
  attention_mask : Nat → Nat → Bool
  context_length : Nat

/-- `GenerationTaskDataset.build_generation_sample(text, max_seq_length,
use_task_mask, unidirectional)`.  The tokenizer's command ids are
parameters: `mask_id_cmd` is `[MASK]`, `gmask_id` is `[gMASK]`, `sop_id`
is `sop`.  The active mask id is `[gMASK]` when `use_task_mask` else
`[MASK]`.  The two `assert`s in the blank-filling branch become
`ConfigConflict`; `np.zeros(max_seq_length - len(token))` with a negative
argument becomes `SequenceTooLong`. -/
def build_generation_sample (text : List Nat) (max_seq_length : Nat)
    (use_task_mask unidirectional : Bool)
    (mask_id_cmd gmask_id sop_id : Nat) : Except EncodeError GenSample :=
  let mask_id := if use_task_mask then gmask_id else mask_id_cmd
  let blank_filling := mask_id ∈ text
  let step1 : Except EncodeError (List Nat × Nat) :=
    if blank_filling then
      if unidirectional then .error .ConfigConflict
      else if use_task_mask then .error .ConfigConflict
      else .ok (text ++ [sop_id], text.indexOf mask_id)
    else
      let mask_position := text.length
      if unidirectional then .ok (mask_id :: sop_id :: text, mask_position)
      else .ok (text ++ [mask_id, sop_id], mask_position)
  match step1 with
  | .error e => .error e
  | .ok (token, mask_position) =>
    let context_length := token.length
    if max_seq_length < token.length then .error .SequenceTooLong
    else
      -- position_id = np.arange(max_seq_length); if not use_task_mask:
      -- position_id[context_length - 1 :] = mask_position
      let position_id := (List.range max_seq_length).map (fun i =>
        if ¬use_task_mask ∧ context_length - 1 ≤ i then mask_position else i)
      let visibility := gen_visibility max_seq_length context_length unidirectional
      .ok { tokens := token ++ List.replicate (max_seq_length - token.length) 0
            position_ids := position_id
            attention_mask := fun r c => lt_half (visibility.entry r c)
            context_length := context_length }

/-! ## `inference.py` position ids -/

/-- The position ids built by `get_masks_and_position_ids_mask` in
`inference.py`: `np.arange(len(seq))` with `[context_length - 1 :]`
overwritten to `mask_position`. -/
def inference_position_ids_mask (seq_length mask_position context_length : Nat) : List Nat :=
  (List.range seq_length).map (fun i =>
    if context_length - 1 ≤ i then mask_position else i)

/-! ## `MultiChoiceTaskDataset` -/

/-- `tgt_seq_length` as computed in
`MultiChoiceTaskDataset.process_single_item`: the total choice-token
count, replaced by `1` when it equals the number of choices. -/
def tgt_seq_length (choices : List (List Nat)) : Nat :=
  let s := (choices.map List.length).sum
  if s = choices.length then 1 else s

/-- The update of the dataset-wide `is_single_token` flag performed by
`process_single_item`: set to `False` when `tgt_seq_length != 1`,
otherwise left unchanged. -/
def update_is_single_token (flag : Bool) (choices : List (List Nat)) : Bool :=
  if tgt_seq_length choices ≠ 1 then false else flag

/-- The dataset-wide `is_single_token` flag after processing all items
(each item given by its choice set), starting from the constructor's
initial value `True`. -/
def dataset_is_single_token (items : List (List (List Nat))) : Bool :=
  items.foldl update_is_single_token true

/-- Loop state of the `for choice in choices` loop in
`build_multiple_choice_sample`.  (`target` is also updated by the loop in
the source, but it is not part of the returned item and is omitted.) -/
structure MCState where
  token : List Nat
  position_id : List Nat
  choice_target_id : List (List Nat)
  blocks : List FMat

/-- One iteration of the choice loop in `build_multiple_choice_sample`:
extend position ids, record the target range `arange(len(token),
len(token) + len(choice))`, append a lower-triangular attention block,
then append `[sop] + choice[:-1]` to the token sequence. -/
def mcStep (sop_id mask_position : Nat) (blank_filling unified : Bool)
    (st : MCState) (choice : List Nat) : MCState :=
  { token := st.token ++ sop_id :: choice.dropLast
    position_id := st.position_id ++
      (if blank_filling ∨ ¬unified then List.replicate choice.length mask_position
       else (List.range choice.length).map (fun i => mask_position + i))
    choice_target_id := st.choice_target_id ++
      [(List.range choice.length).map (fun i => st.token.length + i)]
    blocks := st.blocks ++ [trilF choice.length] }

/-- The item dict returned by `build_multiple_choice_sample`.
`choice_target_id` is the accumulated per-choice list; when
`is_single_token` the item exposes its element `0`, otherwise the whole
list.  (The `choices` field of the item is passed through — flattened in
single-token mode — and carries no structure proved about here.) -/
structure MCSample where
  token : List Nat
  position_id : List Nat
  attention_mask : FMat
  choice_target_id : List (List Nat)

/-- `MultiChoiceTaskDataset.build_multiple_choice_sample(text, choices,
is_single_token, unified_multitask_encoding)`.  The `break` after the
first iteration when `is_single_token` is modelled by folding over
`choices.take 1`.  After the loop the attention blocks are composed
block-diagonally and the context columns `[: len(token), : division]` are
forced to 1. -/
def build_multiple_choice_sample (text : List Nat) (choices : List (List Nat))
    (is_single_token unified_multitask_encoding : Bool)
    (mask_id sop_id : Nat) : MCSample :=
  let blank_filling := mask_id ∈ text
  let token0 := if blank_filling then text else text ++ [mask_id]
  let position0 := if blank_filling then List.range text.length
    else List.range text.length ++ [text.length]
  let mask_position := if blank_filling then text.indexOf mask_id else text.length
  let division := token0.length
  let init : MCState := ⟨token0, position0, [], [onesF division]⟩
  let eff := if is_single_token then choices.take 1 else choices
  let st := eff.foldl (mcStep sop_id mask_position blank_filling unified_multitask_encoding) init
  let base := blockDiagL st.blocks
  let mask : FMat := ⟨base.rows, base.cols, fun r c =>
    if r < st.token.length ∧ c < division then 1 else base.entry r c⟩
  { token := st.token
    position_id := st.position_id
    attention_mask := mask
    choice_target_id := st.choice_target_id }

/-! ## `pad_batch` and `MultiChoiceTaskDataset.collate_fn` -/

/-- `pad_batch(tokens, position_ids, attention_mask, max_seq_length)`:
tokens and position ids are right-padded with zeros; the attention mask
is padded with `np.pad(..., ((0, max_seq_length - len(tokens)),))`, which
grows both axes by the same amount, filling with zeros. -/
def pad_batch (token position_id : List Nat) (attention_mask : FMat)
    (max_seq_length : Nat) : List Nat × List Nat × FMat :=
  let pad := max_seq_length - token.length
  (token ++ List.replicate pad 0,
   position_id ++ List.replicate (max_seq_length - position_id.length) 0,
   ⟨attention_mask.rows + pad, attention_mask.cols + pad, fun r c =>
     if r < attention_mask.rows ∧ c < attention_mask.cols
     then attention_mask.entry r c else 0⟩)

/-- The batch dict returned by `MultiChoiceTaskDataset.collate_fn`.  The
`attention_mask` entries are the padded visibility matrices compared
`< 0.5` (the `choices` passthrough is omitted as in `MCSample`). -/
structure MCBatch where
  tokens : List (List Nat)
  position_ids : List (List Nat)
  attention_mask : List (Nat → Nat → Bool)
  choice_target_ids : List (List (List Nat))
  is_single_token : Bool

/-- `length_to_pad` in `collate_fn`: the maximum token length in the
batch rounded up to a multiple of `TILE = 32` (Python's `max` over an
empty batch would raise; the fold's base `0` is only ever used for
nonempty batches in the claims). -/
def collate_length_to_pad (samples : List MCSample) : Nat :=
  let TILE := 32
  ((samples.foldl (fun m s => max m s.token.length) 0) + TILE - 1) / TILE * TILE

/-- `MultiChoiceTaskDataset.collate_fn(samples)` with the dataset's
`is_single_token` flag as an explicit argument.  The source contains no
homogeneity check on the samples: the function is total. -/
def collate_fn (samples : List MCSample) (is_single_token : Bool) : MCBatch :=
  let length_to_pad := collate_length_to_pad samples
  let padded := samples.map (fun s =>
    pad_batch s.token s.position_id s.attention_mask length_to_pad)
  { tokens := padded.map (fun p => p.1)
    position_ids := padded.map (fun p => p.2.1)
    attention_mask := padded.map (fun p => fun r c => lt_half (p.2.2.entry r c))
    choice_target_ids := samples.map (fun s => s.choice_target_id)
    is_single_token := is_single_token }

/-! ## `ModelForEvaluation.cond_log_prob` -/

/-- `output[choice_target_id, choice].sum()`: NumPy fancy indexing with
two parallel index arrays gathers `output[ctid[k], choice[k]]` for each
`k`, then sums.  `output` is a log-softmaxed logits matrix (position ×
vocabulary), supplied abstractly since the model forward pass is an
external collaborator. -/
def choice_score (output : Nat → Nat → ℚ) (choice_target_id choice : List Nat) : ℚ :=
  ((choice_target_id.zip choice).map (fun p => output p.1 p.2)).sum

/-- The multi-token (`is_single_token` false) branch of
`ModelForEvaluation.cond_log_prob`.  The loop body computes
`log_probs_single` for every sample but never appends it to `log_probs`,
exactly as in the source: only the accumulator initialised to `[]` is
returned. -/
def cond_log_prob_multi (logits_batch : List (Nat → Nat → ℚ))
    (choices_batch : List (List (List Nat)))
    (choice_target_ids_batch : List (List (List Nat))) : List (List ℚ) :=
  (logits_batch.zip (choices_batch.zip choice_target_ids_batch)).foldl
    (fun log_probs s =>
      let _log_probs_single : List ℚ :=
        (s.2.1.zip s.2.2).map (fun p => choice_score s.1 p.2 p.1)
      log_probs)
    []

/-- The single-token branch of `ModelForEvaluation.cond_log_prob`: for
each sample, `logits[choice_target_ids[0], choices]` gathers the
log-probability of every candidate token id at the single target
position, appended to the accumulator. -/
def cond_log_prob_single (logits_batch : List (Nat → Nat → ℚ))
    (choices_batch : List (List Nat))
    (choice_target_ids_batch : List (List Nat)) : List (List ℚ) :=
  (logits_batch.zip (choices_batch.zip choice_target_ids_batch)).foldl
    (fun log_probs s =>
      log_probs ++ [s.2.1.map (fun c => s.1 (s.2.2.headD 0) c)])
    []

/-! ## The splicing step of the iterative mask-filling driver
(`inference.py`, `process`) -/

/-- The `unfinished` index of one splicing step of the driver: over one
`output` sequence from `filling_sequence` (`Int` because unfilled
positions hold the `-1` sentinel), the index of the first `-1`, or the
length when there is none, decremented when the token just before it is
an end token.  Python's `output[unfinished - 1]` wraps to the last
element when `unfinished = 0`. -/
def spliceUnfinished (output : List Int) (end_tokens : List Int) : Nat :=
  let u0 : Nat := output.indexOf (-1 : Int)
  let prev : Int :=
    if u0 = 0 then output.getD (output.length - 1) 0 else output.getD (u0 - 1) 0
  if prev ∈ end_tokens then u0 - 1 else u0

/-- The splice itself: `output[:mask_position] + output[bog + 1 :
unfinished] + output[mask_position + 1 : bog]`, where `bog` is the index
of the first start-of-prediction token. -/
def spliceStep (output : List Int) (mask_position : Nat) (sop : Int)
    (end_tokens : List Int) : List Int :=
  let unfinished : Nat := spliceUnfinished output end_tokens
  let bog : Nat := output.indexOf sop
  output.take mask_position ++ ((output.take unfinished).drop (bog + 1))
    ++ ((output.take bog).drop (mask_position + 1))

/-! ## Theorems -/

/-- Evaluation of `build_generation_sample` when the active mask id does
not occur in `text` and the sequence fits: both modes insert the
mask/start-of-prediction pair and the context length is `len(text) + 2`. -/
theorem build_generation_sample_no_mask (text : List Nat) (max_seq_length : Nat)
    (use_task_mask unidirectional : Bool) (mask_id_cmd gmask_id sop_id : Nat)
    (hmask : (if use_task_mask then gmask_id else mask_id_cmd) ∉ text)
    (hlen : text.length + 2 ≤ max_seq_length) :
    build_generation_sample text max_seq_length use_task_mask unidirectional
      mask_id_cmd gmask_id sop_id =
    .ok { tokens := (if unidirectional then
              (if use_task_mask then gmask_id else mask_id_cmd) :: sop_id :: text
            else text ++ [if use_task_mask then gmask_id else mask_id_cmd, sop_id])
            ++ List.replicate (max_seq_length - (text.length + 2)) 0
          position_ids := (List.range max_seq_length).map (fun i =>
            if ¬use_task_mask ∧ text.length + 1 ≤ i then text.length else i)
          attention_mask := fun r c =>
            lt_half ((gen_visibility max_seq_length (text.length + 2) unidirectional).entry r c)
          context_length := text.length + 2 } := by
  have h2 : ¬ (max_seq_length < text.length + 2) := by omega
  cases unidirectional <;>
    simp [build_generation_sample, hmask, h2, List.length_append]

/-- Evaluation of `build_generation_sample` in blank-filling mode with
both config flags off: `sop` is appended and the mask's index anchors the
positions. -/
theorem build_generation_sample_blank (text : List Nat) (max_seq_length : Nat)
    (mask_id_cmd gmask_id sop_id : Nat)
    (hmask : mask_id_cmd ∈ text)
    (hlen : text.length + 1 ≤ max_seq_length) :
    build_generation_sample text max_seq_length false false
      mask_id_cmd gmask_id sop_id =
    .ok { tokens := text ++ [sop_id] ++ List.replicate (max_seq_length - (text.length + 1)) 0
          position_ids := (List.range max_seq_length).map (fun i =>
            if text.length ≤ i then text.indexOf mask_id_cmd else i)
          attention_mask := fun r c =>
            lt_half ((gen_visibility max_seq_length (text.length + 1) false).entry r c)
          context_length := text.length + 1 } := by
  have h2 : ¬ (max_seq_length < text.length + 1) := by omega
  simp [build_generation_sample, hmask, h2]

/-- In blank-filling mode any of the two config flags makes
`build_generation_sample` fail with `ConfigConflict` (the failed
`assert`s). -/
theorem build_generation_sample_blank_conflict (text : List Nat) (max_seq_length : Nat)
    (use_task_mask unidirectional : Bool) (mask_id_cmd gmask_id sop_id : Nat)
    (hmask : (if use_task_mask then gmask_id else mask_id_cmd) ∈ text)
    (hcfg : unidirectional = true ∨ use_task_mask = true) :
    build_generation_sample text max_seq_length use_task_mask unidirectional
      mask_id_cmd gmask_id sop_id = .error .ConfigConflict := by
  rcases hcfg with h | h
  · subst h; simp [build_generation_sample, hmask]
  · subst h
    simp only [if_pos] at hmask
    cases unidirectional <;> simp [build_generation_sample, hmask]

/-- **C5.** For every token sequence without an embedded mask marker, the
generation encoding in bidirectional mode appends the mask token then the
start-of-prediction token and yields `context_length = len(tokens) + 2`,
while unidirectional mode prepends the mask/start-of-prediction pair at
the front with the same total length. -/
theorem C5_generation_encoding_no_mask (text : List Nat) (max_seq_length : Nat)
    (use_task_mask unidirectional : Bool) (mask_id_cmd gmask_id sop_id : Nat)
    (hmask : (if use_task_mask then gmask_id else mask_id_cmd) ∉ text)
    (hlen : text.length + 2 ≤ max_seq_length) :
    (build_generation_sample text max_seq_length use_task_mask unidirectional
        mask_id_cmd gmask_id sop_id).toOption.map
      (fun s => (s.tokens, s.context_length)) =
    some ((if unidirectional then
            (if use_task_mask then gmask_id else mask_id_cmd) :: sop_id :: text
          else text ++ [if use_task_mask then gmask_id else mask_id_cmd, sop_id])
            ++ List.replicate (max_seq_length - (text.length + 2)) 0,
          text.length + 2) := by
  rw [build_generation_sample_no_mask text max_seq_length use_task_mask unidirectional
    mask_id_cmd gmask_id sop_id hmask hlen]
  rfl

/-- Witness for C5 at `text = [5, 6, 7]`, `max_seq_length = 8`,
bidirectional: mask (id 100) and sop (id 102) appended,
`context_length = 5`. -/
theorem C5_generation_encoding_no_mask_witness :
    (build_generation_sample [5, 6, 7] 8 false false 100 101 102).toOption.map
      (fun s => (s.tokens, s.context_length)) =
    some ([5, 6, 7, 100, 102, 0, 0, 0], 5) :=
  (C5_generation_encoding_no_mask [5, 6, 7] 8 false false 100 101 102
    (by decide) (by decide)).trans (by decide)

/-- **C6.** For every generation encoding, the returned position ids are
`0, 1, ..., max_length - 1`, except that when `use_task_mask` is false
every entry at index `context_length - 1` or later is overwritten with
`mask_position` (the mask's index in blank-filling mode, `len(text)`
otherwise). -/
theorem C6_generation_position_ids (text : List Nat) (max_seq_length : Nat)
    (use_task_mask unidirectional : Bool) (mask_id_cmd gmask_id sop_id : Nat)
    (s : GenSample)
    (h : build_generation_sample text max_seq_length use_task_mask unidirectional
          mask_id_cmd gmask_id sop_id = .ok s) :
    s.position_ids = (List.range max_seq_length).map (fun i =>
      if use_task_mask = false ∧ s.context_length - 1 ≤ i
      then (if (if use_task_mask then gmask_id else mask_id_cmd) ∈ text
            then text.indexOf (if use_task_mask then gmask_id else mask_id_cmd)
            else text.length)
      else i) := by
  by_cases hbf : (if use_task_mask then gmask_id else mask_id_cmd) ∈ text
  · cases use_task_mask
    · cases unidirectional
      · simp only [Bool.false_eq_true, if_false] at hbf
        simp [build_generation_sample, hbf] at h
        split at h
        · simp at h
        · injection h with h'
          subst h'
          simp [hbf]
      · simp only [Bool.false_eq_true, if_false] at hbf
        simp [build_generation_sample, hbf] at h
    · simp only [if_pos] at hbf
      cases unidirectional <;> simp [build_generation_sample, hbf] at h
  · cases use_task_mask
    · simp only [Bool.false_eq_true, if_false] at hbf
      cases unidirectional
      · simp [build_generation_sample, hbf] at h
        split at h
        · simp at h
        · injection h with h'
          subst h'
          simp [hbf]
      · simp [build_generation_sample, hbf] at h
        split at h
        · simp at h
        · injection h with h'
          subst h'
          simp [hbf]
    · simp only [if_pos] at hbf
      cases unidirectional
      · simp [build_generation_sample, hbf] at h
        split at h
        · simp at h
        · injection h with h'
          subst h'
          simp [hbf]
      · simp [build_generation_sample, hbf] at h
        split at h
        · simp at h
        · injection h with h'
          subst h'
          simp [hbf]

/-- Witness for C6: at `text = [5, 6, 7]`, `max_seq_length = 8`,
bidirectional, no task mask, the encoding succeeds and every position id
from index `context_length - 1 = 4` on is the anchor `mask_position = 3`. -/
theorem C6_generation_position_ids_witness :
    ∃ s : GenSample,
      build_generation_sample [5, 6, 7] 8 false false 100 101 102 = .ok s ∧
      s.position_ids = [0, 1, 2, 3, 3, 3, 3, 3] := by
  refine ⟨_, rfl, ?_⟩
  have h := C6_generation_position_ids [5, 6, 7] 8 false false 100 101 102 _ rfl
  exact h.trans (by decide)

/-- **C8.** For every call to the generation encoder on a token sequence
already containing the (active) mask marker, the call fails with
`ConfigConflict` whenever `unidirectional` or `use_task_mask` is true;
when both are false it succeeds, appends a start-of-prediction token
after the sequence, and anchors all predicted positions at the mask's
original index. -/
theorem C8_blank_filling_config (text : List Nat) (max_seq_length : Nat)
    (use_task_mask unidirectional : Bool) (mask_id_cmd gmask_id sop_id : Nat)
    (hmask : (if use_task_mask then gmask_id else mask_id_cmd) ∈ text) :
    ((unidirectional = true ∨ use_task_mask = true) →
      build_generation_sample text max_seq_length use_task_mask unidirectional
        mask_id_cmd gmask_id sop_id = .error .ConfigConflict)
    ∧ (unidirectional = false → use_task_mask = false →
       text.length + 1 ≤ max_seq_length →
       (build_generation_sample text max_seq_length use_task_mask unidirectional
          mask_id_cmd gmask_id sop_id).toOption.map
          (fun s => (s.tokens, s.position_ids)) =
        some (text ++ [sop_id] ++ List.replicate (max_seq_length - (text.length + 1)) 0,
          (List.range max_seq_length).map (fun i =>
            if text.length ≤ i then text.indexOf mask_id_cmd else i))) := by
  constructor
  · exact fun hcfg => build_generation_sample_blank_conflict text max_seq_length
      use_task_mask unidirectional mask_id_cmd gmask_id sop_id hmask hcfg
  · intro hu ht hlen
    subst hu; subst ht
    simp only [Bool.false_eq_true, if_false] at hmask
    rw [build_generation_sample_blank text max_seq_length mask_id_cmd gmask_id sop_id
      hmask hlen]
    rfl

/-- Witness for C8: `text = [5, 100, 7]` contains the mask id 100; with
`unidirectional = true` the encoder fails with `ConfigConflict`, and with
both flags false it succeeds with `sop` (102) appended. -/
theorem C8_blank_filling_config_witness :
    build_generation_sample [5, 100, 7] 8 false true 100 101 102
        = .error .ConfigConflict ∧
    (build_generation_sample [5, 100, 7] 8 false false 100 101 102).toOption.map
        (fun s => (s.tokens, s.position_ids)) =
      some ([5, 100, 7, 102, 0, 0, 0, 0], [0, 1, 2, 1, 1, 1, 1, 1]) :=
  ⟨(C8_blank_filling_config [5, 100, 7] 8 false true 100 101 102 (by decide)).1
      (Or.inl rfl),
   ((C8_blank_filling_config [5, 100, 7] 8 false false 100 101 102 (by decide)).2
      rfl rfl (by decide)).trans (by decide)⟩

/-- **C4.** For every splicing step of the iterative mask-filling driver:
when the decoder output is the working sequence `original` (with its
earliest mask at `mask_position`) followed by the start-of-prediction
token and the generated continuation, the new working sequence equals
`original[:mask_position] + output[bog+1:unfinished] +
original[mask_position+1:bog]`. -/
theorem C4_splice_step (original rest : List Int) (mask_position : Nat)
    (sop : Int) (end_tokens : List Int)
    (hsop : sop ∉ original)
    (hmp : mask_position < original.length) :
    spliceStep (original ++ sop :: rest) mask_position sop end_tokens
      = original.take mask_position
        ++ (((original ++ sop :: rest).take
              (spliceUnfinished (original ++ sop :: rest) end_tokens)).drop
            ((original ++ sop :: rest).indexOf sop + 1))
        ++ ((original.take ((original ++ sop :: rest).indexOf sop)).drop
            (mask_position + 1)) := by
  have hbog : (original ++ sop :: rest).indexOf sop = original.length := by
    rw [List.indexOf_append_of_not_mem hsop]
    simp
  simp only [spliceStep]
  rw [hbog, List.take_append_of_le_length (le_of_lt hmp), List.take_left,
    List.take_length]

/-- Witness for C4: `original = [10, 99, 11]` (`99` the mask at index 1),
continuation `[98, 1, 2, 97]` (`98` = sop, `97` an end token) splices to
`[10, 1, 2, 11]`. -/
theorem C4_splice_step_witness :
    spliceStep [10, 99, 11, 98, 1, 2, 97] 1 98 [97] = [10, 1, 2, 11] :=
  (C4_splice_step [10, 99, 11] [1, 2, 97] 1 98 [97] (by decide) (by decide)).trans
    (by decide)

/-- **C1 (code defect).** The multi-token branch of
`ModelForEvaluation.cond_log_prob` computes each sample's per-choice
summed log-probabilities but never appends them to the returned
accumulator, so for every batch it returns the empty list instead of one
score list per sample (contradicting the function's own docstring,
"Conditional log probability of each option"). -/
theorem C1_cond_log_prob_multi_returns_empty
    (logits_batch : List (Nat → Nat → ℚ))
    (choices_batch : List (List (List Nat)))
    (choice_target_ids_batch : List (List (List Nat))) :
    cond_log_prob_multi logits_batch choices_batch choice_target_ids_batch = [] := by
  unfold cond_log_prob_multi
  generalize (logits_batch.zip (choices_batch.zip choice_target_ids_batch)) = l
  induction l with
  | nil => rfl
  | cons a t ih => exact ih

/-- **C3 counterexample.** The item with choices `[[], [5, 6]]` (an empty
choice and a two-token choice) has total choice-token count equal to the
number of choices, so `process_single_item` computes `tgt_seq_length = 1`
and leaves `is_single_token` true, even though not every choice has
length exactly 1. -/
theorem C3_counterexample :
    update_is_single_token true [[], [5, 6]] = true ∧
    ¬ (∀ ch ∈ [([] : List Nat), [5, 6]], ch.length = 1) := by
  exact ⟨rfl, by decide⟩

/-- A list of nonzero naturals has at least as many in total as elements. -/
theorem length_le_sum_of_ne_zero (l : List Nat) (h : ∀ x ∈ l, x ≠ 0) :
    l.length ≤ l.sum := by
  induction l with
  | nil => simp
  | cons a t ih =>
    have ha : a ≠ 0 := h a (by simp)
    have := ih (fun x hx => h x (by simp [hx]))
    simp only [List.length_cons, List.sum_cons]
    omega

/-- If every element of a list of naturals is nonzero, the sum equals the
length exactly when every element is 1. -/
theorem sum_eq_length_iff_all_one (l : List Nat) (h : ∀ x ∈ l, x ≠ 0) :
    l.sum = l.length ↔ ∀ x ∈ l, x = 1 := by
  induction l with
  | nil => simp
  | cons a t ih =>
    have ha : a ≠ 0 := h a (by simp)
    have ht : ∀ x ∈ t, x ≠ 0 := fun x hx => h x (by simp [hx])
    have hlen : t.length ≤ t.sum := length_le_sum_of_ne_zero t ht
    constructor
    · intro hs
      have hsum : a + t.sum = t.length + 1 := by simpa using hs
      have ha1 : a = 1 ∧ t.sum = t.length := by omega
      intro x hx
      rcases List.mem_cons.1 hx with rfl | hx
      · exact ha1.1
      · exact ((ih ht).1 ha1.2) x hx
    · intro hall
      have ha1 : a = 1 := hall a (by simp)
      have h2 : t.sum = t.length := (ih ht).2 (fun x hx => hall x (by simp [hx]))
      simp only [List.sum_cons, List.length_cons, ha1, h2]
      omega

/-- **C3 (amended).** For items whose choices are all non-empty,
processed as the first item of a dataset, `is_single_token` remains true
exactly when every choice has length 1; and for an all-single-token item
the single-token encoding records `choice_target_ids` as the one-element
range `[division]`, the length of the context-plus-mask prefix. -/
theorem C3_single_token_iff (text : List Nat) (choices : List (List Nat))
    (unified : Bool) (mask_id sop_id : Nat)
    (hne : ∀ ch ∈ choices, ch ≠ []) :
    (update_is_single_token true choices = true ↔ ∀ ch ∈ choices, ch.length = 1)
    ∧ (choices ≠ [] → (∀ ch ∈ choices, ch.length = 1) →
        (build_multiple_choice_sample text choices true unified mask_id sop_id).choice_target_id
          = [[if mask_id ∈ text then text.length else text.length + 1]]) := by
  constructor
  · have hnz : ∀ x ∈ choices.map List.length, x ≠ 0 := by
      intro x hx
      rcases List.mem_map.1 hx with ⟨ch, hch, rfl⟩
      simpa [List.length_eq_zero] using hne ch hch
    have htgt : tgt_seq_length choices = 1 ↔ ∀ ch ∈ choices, ch.length = 1 := by
      unfold tgt_seq_length
      by_cases hs : (choices.map List.length).sum = choices.length
      · simp only [hs, if_pos]
        have h1 := sum_eq_length_iff_all_one (choices.map List.length) hnz
        rw [List.length_map] at h1
        constructor
        · intro _ ch hch
          exact (h1.1 hs) ch.length (List.mem_map_of_mem List.length hch)
        · intro _; trivial
      · simp only [hs, if_false]
        have hle : (choices.map List.length).length ≤ (choices.map List.length).sum :=
          length_le_sum_of_ne_zero _ hnz
        rw [List.length_map] at hle
        constructor
        · intro h1
          exfalso
          rcases choices with _ | ⟨c, cs⟩
          · simp at hs
          · have : c.length ≠ 0 := by
              simpa [List.length_eq_zero] using hne c (by simp)
            simp only [List.map_cons, List.sum_cons, List.length_cons] at h1 hs hle
            omega
        · intro hall
          exfalso
          apply hs
          have h1 := sum_eq_length_iff_all_one (choices.map List.length) hnz
          rw [List.length_map] at h1
          exact h1.2 (by
            intro x hx
            rcases List.mem_map.1 hx with ⟨ch, hch, rfl⟩
            exact hall ch hch)
    unfold update_is_single_token
    rcases htgt with ⟨h1, h2⟩
    constructor
    · intro hfl
      apply h1
      by_contra hne1
      simp [hne1] at hfl
    · intro hall
      simp [h2 hall]
  · intro hnonempty hall
    rcases choices with _ | ⟨c, cs⟩
    · exact absurd rfl hnonempty
    · have hc1 : c.length = 1 := hall c (by simp)
      by_cases hbf : mask_id ∈ text
      · simp [build_multiple_choice_sample, hbf, mcStep, hc1, List.range_succ]
      · simp [build_multiple_choice_sample, hbf, mcStep, hc1, List.range_succ]

/-- Witness for C3 (amended): the all-single-token item `[[7], [9]]` over
context `[5, 6]` keeps the flag true, and its encoding's
`choice_target_ids` is the singleton `[3]` (the context-plus-mask prefix
has length 3). -/
theorem C3_single_token_iff_witness :
    update_is_single_token true [[7], [9]] = true ∧
    (build_multiple_choice_sample [5, 6] [[7], [9]] true false 100 102).choice_target_id
      = [[3]] := by
  have h := C3_single_token_iff [5, 6] [[7], [9]] false 100 102 (by decide)
  exact ⟨h.1.2 (by decide), (h.2 (by decide) (by decide)).trans (by decide)⟩

/-- **C2 counterexample.** Collating a mixed collection — a single-token
item with choices `[[3], [4]]` together with a multi-token item with
choices `[[5, 6], [7]]` — does not fail with any error: the source's
`collate_fn` contains no homogeneity check at all (the embedded function
is total), and here it returns a normal two-row batch, padded to length
32, merely flagged `is_single_token = false`. -/
theorem C2_collate_mixed_counterexample :
    (collate_fn
        [build_multiple_choice_sample [9] [[3], [4]]
            (dataset_is_single_token [[[3], [4]], [[5, 6], [7]]]) false 100 102,
         build_multiple_choice_sample [9] [[5, 6], [7]]
            (dataset_is_single_token [[[3], [4]], [[5, 6], [7]]]) false 100 102]
        (dataset_is_single_token [[[3], [4]], [[5, 6], [7]]])).tokens.map List.length
      = [32, 32]
    ∧ (collate_fn
        [build_multiple_choice_sample [9] [[3], [4]]
            (dataset_is_single_token [[[3], [4]], [[5, 6], [7]]]) false 100 102,
         build_multiple_choice_sample [9] [[5, 6], [7]]
            (dataset_is_single_token [[[3], [4]], [[5, 6], [7]]]) false 100 102]
        (dataset_is_single_token [[[3], [4]], [[5, 6], [7]]])).is_single_token
      = false := by
  exact ⟨by decide, by decide⟩

/-- Folding the per-item flag update equals the initial flag conjoined
with the per-item single-token checks. -/
theorem dataset_is_single_token_foldl (items : List (List (List Nat))) (b : Bool) :
    items.foldl update_is_single_token b
      = (b && items.all (fun it => tgt_seq_length it = 1)) := by
  induction items generalizing b with
  | nil => simp
  | cons it t ih =>
    simp only [List.foldl_cons, List.all_cons, ih]
    unfold update_is_single_token
    by_cases h : tgt_seq_length it = 1
    · simp [h]
    · simp [h]

/-- **C2 (amended).** Collation never fails: the source has no
`InconsistentBatch` check.  For every collection of multi-choice items,
building the samples with the dataset flag and collating yields one
padded row per item, and the batch's `is_single_token` flag is false
exactly when some item is multi-token (`tgt_seq_length ≠ 1`) — a mixed
collection is simply treated as multi-token; a homogeneous collection
collates with the corresponding flag. -/
theorem C2_collate_mixed_succeeds (items : List (List (List Nat)))
    (text : List Nat) (unified : Bool) (mask_id sop_id : Nat) :
    (collate_fn (items.map (fun chs => build_multiple_choice_sample text chs
        (dataset_is_single_token items) unified mask_id sop_id))
      (dataset_is_single_token items)).tokens.length = items.length
    ∧ ((collate_fn (items.map (fun chs => build_multiple_choice_sample text chs
          (dataset_is_single_token items) unified mask_id sop_id))
        (dataset_is_single_token items)).is_single_token = false
       ↔ ∃ it ∈ items, ¬ tgt_seq_length it = 1) := by
  constructor
  · simp [collate_fn]
  · show dataset_is_single_token items = false ↔ _
    rw [dataset_is_single_token, dataset_is_single_token_foldl]
    simp [List.all_eq_true]

/-- The batch-maximum fold is monotone in its initial value. -/
theorem foldl_max_init_mono (t : List MCSample) (b1 b2 : Nat) (hb : b1 ≤ b2) :
    t.foldl (fun m s => max m s.token.length) b1
      ≤ t.foldl (fun m s => max m s.token.length) b2 := by
  induction t generalizing b1 b2 with
  | nil => simpa using hb
  | cons c u ih =>
    simp only [List.foldl_cons]
    exact ih _ _ (max_le_max hb (le_refl _))

/-- The initial value bounds the batch-maximum fold from below. -/
theorem init_le_foldl_max (t : List MCSample) (b : Nat) :
    b ≤ t.foldl (fun m s => max m s.token.length) b := by
  induction t generalizing b with
  | nil => simp
  | cons c u ih =>
    simp only [List.foldl_cons]
    exact le_trans (le_max_left _ _) (ih _)

/-- Every sample's token length is bounded by the batch maximum fold. -/
theorem token_length_le_foldl_max (samples : List MCSample) (b : Nat) :
    ∀ s ∈ samples, s.token.length ≤ samples.foldl (fun m s => max m s.token.length) b := by
  induction samples generalizing b with
  | nil => simp
  | cons a t ih =>
    intro s hs
    rcases List.mem_cons.1 hs with rfl | hs
    · simp only [List.foldl_cons]
      exact le_trans (le_max_right b s.token.length) (init_le_foldl_max t _)
    · simp only [List.foldl_cons]
      exact ih _ s hs

/-- **C9.** For every non-empty collection of encoded multi-choice
samples (position ids no longer than tokens, attention mask dimensions
matching the token count, as the encoder produces them), the collator
pads every sample's token, position-id and attention-mask arrays to
`ceil(max_len_in_batch / 32) * 32`, and the padding token ids and
position ids are zero. -/
theorem C9_collate_pads (samples : List MCSample) (flag : Bool)
    (hne : samples ≠ [])
    (hpos : ∀ s ∈ samples, s.position_id.length ≤ s.token.length)
    (hdim : ∀ s ∈ samples, s.attention_mask.rows = s.token.length ∧
      s.attention_mask.cols = s.token.length) :
    collate_length_to_pad samples % 32 = 0
    ∧ (∀ s ∈ samples, s.token.length ≤ collate_length_to_pad samples)
    ∧ (collate_fn samples flag).tokens = samples.map (fun s =>
        s.token ++ List.replicate (collate_length_to_pad samples - s.token.length) 0)
    ∧ (∀ t ∈ (collate_fn samples flag).tokens, t.length = collate_length_to_pad samples)
    ∧ (collate_fn samples flag).position_ids = samples.map (fun s =>
        s.position_id ++ List.replicate (collate_length_to_pad samples - s.position_id.length) 0)
    ∧ (∀ t ∈ (collate_fn samples flag).position_ids,
        t.length = collate_length_to_pad samples)
    ∧ (∀ s ∈ samples,
        (pad_batch s.token s.position_id s.attention_mask
            (collate_length_to_pad samples)).2.2.rows = collate_length_to_pad samples ∧
        (pad_batch s.token s.position_id s.attention_mask
            (collate_length_to_pad samples)).2.2.cols = collate_length_to_pad samples) := by
  have hle : ∀ s ∈ samples, s.token.length ≤ collate_length_to_pad samples := by
    intro s hs
    have h1 := token_length_le_foldl_max samples 0 s hs
    simp only [collate_length_to_pad]
    set M := samples.foldl (fun m s => max m s.token.length) 0 with hM
    have hdm := Nat.div_add_mod (M + 32 - 1) 32
    have hmlt : (M + 32 - 1) % 32 < 32 := Nat.mod_lt _ (by omega)
    omega
  refine ⟨?_, hle, ?_, ?_, ?_, ?_, ?_⟩
  · exact Nat.mul_mod_left _ 32
  · simp only [collate_fn, List.map_map]
    rfl
  · intro t ht
    simp only [collate_fn, List.map_map, List.mem_map] at ht
    rcases ht with ⟨s, hs, rfl⟩
    have := hle s hs
    simp only [Function.comp_apply, pad_batch, List.length_append,
      List.length_replicate]
    omega
  · simp only [collate_fn, List.map_map]
    rfl
  · intro t ht
    simp only [collate_fn, List.map_map, List.mem_map] at ht
    rcases ht with ⟨s, hs, rfl⟩
    have h1 := hle s hs
    have h2 := hpos s hs
    simp only [Function.comp_apply, pad_batch, List.length_append,
      List.length_replicate]
    omega
  · intro s hs
    have h1 := hle s hs
    have h2 := (hdim s hs).1
    have h3 := (hdim s hs).2
    simp only [pad_batch]
    omega

/-- A synthetic encoded sample of token length `n`, used to witness the
padding behaviour. -/
def sampleOfLen (n : Nat) : MCSample :=
  ⟨List.replicate n 1, List.replicate n 0, ⟨n, n, fun _ _ => 1⟩, []⟩

/-- Witness for C9: collating samples of encoded lengths 10 and 35 pads
both to length 64. -/
theorem C9_collate_pads_witness :
    (collate_fn [sampleOfLen 10, sampleOfLen 35] false).tokens.map List.length
      = [64, 64]
    ∧ collate_length_to_pad [sampleOfLen 10, sampleOfLen 35] = 64 := by
  have h := C9_collate_pads [sampleOfLen 10, sampleOfLen 35] false (by simp)
    (by decide) (by decide)
  refine ⟨?_, by decide⟩
  rw [h.2.2.1]
  decide

/-- The list of per-choice target ranges accumulated by the choice loop
when the running token length starts at `base`: each iteration appends
`[sop] + choice[:-1]`, i.e. `choice[:-1].length + 1` tokens. -/
def ctidList (base : Nat) : List (List Nat) → List (List Nat)
  | [] => []
  | c :: cs => ((List.range c.length).map (fun t => base + t))
      :: ctidList (base + (c.dropLast.length + 1)) cs

/-- The choice loop's accumulated `choice_target_id`. -/
theorem mcFoldl_choice_target_id (sop_id mask_position : Nat) (bf u : Bool)
    (choices : List (List Nat)) (st : MCState) :
    (choices.foldl (mcStep sop_id mask_position bf u) st).choice_target_id
      = st.choice_target_id ++ ctidList st.token.length choices := by
  induction choices generalizing st with
  | nil => simp [ctidList]
  | cons c cs ih =>
    simp only [List.foldl_cons, ih, ctidList]
    simp [mcStep, List.append_assoc]

/-- The choice loop's accumulated attention blocks: the initial blocks
followed by one lower-triangular block per choice. -/
theorem mcFoldl_blocks (sop_id mask_position : Nat) (bf u : Bool)
    (choices : List (List Nat)) (st : MCState) :
    (choices.foldl (mcStep sop_id mask_position bf u) st).blocks
      = st.blocks ++ choices.map (fun ch => trilF ch.length) := by
  induction choices generalizing st with
  | nil => simp
  | cons c cs ih =>
    simp only [List.foldl_cons, ih]
    simp [mcStep, List.append_assoc]

/-- Element `i` of the accumulated target ranges: the range of choice
`i`'s length shifted by `base` plus the lengths of the earlier choices
(for non-empty choices, `choice[:-1].length + 1 = choice.length`). -/
theorem ctidList_getD (choices : List (List Nat)) (base i : Nat)
    (hi : i < choices.length) (hne : ∀ ch ∈ choices, ch ≠ []) :
    (ctidList base choices).getD i []
      = (List.range ((choices.getD i []).length)).map
          (fun t => base + ((choices.take i).map List.length).sum + t) := by
  induction choices generalizing base i with
  | nil => simp at hi
  | cons c cs ih =>
    cases i with
    | zero => simp [ctidList]
    | succ j =>
      have hc : c ≠ [] := hne c (by simp)
      have hd : c.dropLast.length + 1 = c.length := by
        rcases c with _ | ⟨x, xs⟩
        · exact absurd rfl hc
        · simp
      have hj : j < cs.length := by simpa using hi
      have hnecs : ∀ ch ∈ cs, ch ≠ [] := fun ch hch => hne ch (by simp [hch])
      simp only [ctidList, List.getD_cons_succ, List.getD_cons_succ,
        List.take_succ_cons, List.map_cons, List.sum_cons]
      rw [ih _ j hj hnecs, hd]
      congr 1
      funext t
      omega

/-- Cross-block entries of the block-diagonal of lower-triangular blocks
are zero: a row in block `i`'s span and a column in block `j`'s span with
`i ≠ j` never see each other. -/
theorem blockDiagL_tril_cross (lens : List Nat) (i j r c : Nat)
    (hi : i < lens.length) (hj : j < lens.length) (hij : i ≠ j)
    (hr1 : (lens.take i).sum ≤ r) (hr2 : r < (lens.take i).sum + lens.getD i 0)
    (hc1 : (lens.take j).sum ≤ c) (hc2 : c < (lens.take j).sum + lens.getD j 0) :
    (blockDiagL (lens.map trilF)).entry r c = 0 := by
  induction lens generalizing i j r c with
  | nil => simp at hi
  | cons a t ih =>
    simp only [List.map_cons, blockDiagL]
    cases i with
    | zero =>
      cases j with
      | zero => exact absurd rfl hij
      | succ j' =>
        simp only [List.take_zero, List.sum_nil, List.getD_cons_zero,
          Nat.zero_add] at hr1 hr2
        simp only [List.take_succ_cons, List.sum_cons,
          List.getD_cons_succ] at hc1 hc2
        have hca : ¬ c < a := by omega
        simp [blockDiag2, trilF, hr2, hca]
    | succ i' =>
      simp only [List.take_succ_cons, List.sum_cons,
        List.getD_cons_succ] at hr1 hr2
      have hra : ¬ r < a := by omega
      cases j with
      | zero =>
        simp only [List.take_zero, List.sum_nil, List.getD_cons_zero,
          Nat.zero_add] at hc1 hc2
        simp [blockDiag2, trilF, hra, hc2]
      | succ j' =>
        simp only [List.take_succ_cons, List.sum_cons,
          List.getD_cons_succ] at hc1 hc2
        have hca : ¬ c < a := by omega
        have hi' : i' < t.length := by simpa using hi
        have hj' : j' < t.length := by simpa using hj
        have hij' : i' ≠ j' := fun h => hij (by rw [h])
        simp only [blockDiag2, trilF, hra, hca, if_false]
        exact ih i' j' (r - a) (c - a) hi' hj' hij'
          (by omega) (by omega) (by omega) (by omega)

/-- Within-block entries of the block-diagonal of lower-triangular
blocks follow the causal (lower-triangular) pattern. -/
theorem blockDiagL_tril_within (lens : List Nat) (i r c : Nat)
    (hi : i < lens.length)
    (hr1 : (lens.take i).sum ≤ r) (hr2 : r < (lens.take i).sum + lens.getD i 0)
    (hc1 : (lens.take i).sum ≤ c) (hc2 : c < (lens.take i).sum + lens.getD i 0) :
    (blockDiagL (lens.map trilF)).entry r c = if c ≤ r then 1 else 0 := by
  induction lens generalizing i r c with
  | nil => simp at hi
  | cons a t ih =>
    simp only [List.map_cons, blockDiagL]
    cases i with
    | zero =>
      simp only [List.take_zero, List.sum_nil, List.getD_cons_zero,
        Nat.zero_add] at hr1 hr2 hc1 hc2
      simp [blockDiag2, trilF, hr2, hc2]
    | succ i' =>
      simp only [List.take_succ_cons, List.sum_cons,
        List.getD_cons_succ] at hr1 hr2 hc1 hc2
      have hra : ¬ r < a := by omega
      have hca : ¬ c < a := by omega
      have hi' : i' < t.length := by simpa using hi
      simp only [blockDiag2, trilF, hra, hca, if_false]
      rw [ih i' (r - a) (c - a) hi' (by omega) (by omega) (by omega) (by omega)]
      have hiff : (c - a ≤ r - a) ↔ (c ≤ r) := by omega
      simp [hiff]

/-- `getD` over a mapped-length list agrees with the length of `getD`. -/
theorem getD_map_length (choices : List (List Nat)) (k : Nat)
    (hk : k < choices.length) :
    (choices.map List.length).getD k 0 = (choices.getD k []).length := by
  rw [List.getD_eq_getElem _ _ (by simpa using hk),
    List.getD_eq_getElem _ _ hk, List.getElem_map]

/-- Core facts about the assembled multi-choice visibility matrix, for an
arbitrary final token length `tokLen`: cross-choice blocking, full
context visibility, and causal visibility within one choice's span. -/
theorem mc_mask_core (division tokLen : Nat) (choices : List (List Nat))
    (hne : ∀ ch ∈ choices, ch ≠ []) :
    (∀ i j, i < choices.length → j < choices.length → i ≠ j →
      ∀ r ∈ (ctidList division choices).getD i [],
      ∀ c ∈ (ctidList division choices).getD j [],
        (if r < tokLen ∧ c < division then 1
         else (blockDiag2 (onesF division)
            (blockDiagL (choices.map (fun ch => trilF ch.length)))).entry r c) = 0)
    ∧ (∀ r, r < tokLen → ∀ c, c < division →
        (if r < tokLen ∧ c < division then 1
         else (blockDiag2 (onesF division)
            (blockDiagL (choices.map (fun ch => trilF ch.length)))).entry r c) = 1)
    ∧ (∀ i, i < choices.length →
      ∀ r ∈ (ctidList division choices).getD i [],
      ∀ c ∈ (ctidList division choices).getD i [],
        (if r < tokLen ∧ c < division then 1
         else (blockDiag2 (onesF division)
            (blockDiagL (choices.map (fun ch => trilF ch.length)))).entry r c)
          = if c ≤ r then 1 else 0) := by
  have hmm : choices.map (fun ch => trilF ch.length)
      = (choices.map List.length).map trilF := by
    simp [List.map_map]
  have htake : ∀ k, (((choices.map List.length).take k).sum)
      = ((choices.take k).map List.length).sum := by
    intro k
    rw [← List.map_take]
  refine ⟨?_, ?_, ?_⟩
  · intro i j hi hj hij r hr c hc
    rw [ctidList_getD choices division i hi hne] at hr
    rw [ctidList_getD choices division j hj hne] at hc
    simp only [List.mem_map, List.mem_range] at hr hc
    obtain ⟨tr, htr, rfl⟩ := hr
    obtain ⟨tc, htc, rfl⟩ := hc
    rw [if_neg (by omega), hmm]
    simp only [blockDiag2, onesF]
    rw [if_neg (by omega), if_neg (by omega)]
    apply blockDiagL_tril_cross (choices.map List.length) i j _ _
      (by simpa using hi) (by simpa using hj) hij
    · rw [htake i]; omega
    · rw [htake i, getD_map_length choices i hi]; omega
    · rw [htake j]; omega
    · rw [htake j, getD_map_length choices j hj]; omega
  · intro r hr c hc
    rw [if_pos ⟨hr, hc⟩]
  · intro i hi r hr c hc
    rw [ctidList_getD choices division i hi hne] at hr hc
    simp only [List.mem_map, List.mem_range] at hr hc
    obtain ⟨tr, htr, rfl⟩ := hr
    obtain ⟨tc, htc, rfl⟩ := hc
    rw [if_neg (by omega), hmm]
    simp only [blockDiag2, onesF]
    rw [if_neg (by omega), if_neg (by omega)]
    rw [blockDiagL_tril_within (choices.map List.length) i _ _
      (by simpa using hi)
      (by rw [htake i]; omega)
      (by rw [htake i, getD_map_length choices i hi]; omega)
      (by rw [htake i]; omega)
      (by rw [htake i, getD_map_length choices i hi]; omega)]
    rw [if_congr (by omega :
      (division + ((choices.take i).map List.length).sum + tc - division
        ≤ division + ((choices.take i).map List.length).sum + tr - division)
      ↔ (division + ((choices.take i).map List.length).sum + tc
        ≤ division + ((choices.take i).map List.length).sum + tr)) rfl rfl]

/-- The multi-token encoder's recorded target ranges are `ctidList` from
the context-plus-mask prefix length. -/
theorem build_mc_choice_target_id (text : List Nat) (choices : List (List Nat))
    (unified : Bool) (mask_id sop_id : Nat) :
    (build_multiple_choice_sample text choices false unified mask_id sop_id).choice_target_id
      = ctidList (if mask_id ∈ text then text.length else text.length + 1) choices := by
  by_cases hbf : mask_id ∈ text
  · simp only [build_multiple_choice_sample, hbf, if_pos, if_true, if_false,
      Bool.false_eq_true]
    rw [mcFoldl_choice_target_id]
    simp [hbf]
  · simp only [build_multiple_choice_sample, hbf, if_neg, if_true, if_false,
      Bool.false_eq_true]
    rw [mcFoldl_choice_target_id]
    simp [hbf]

/-- The multi-token encoder's attention-mask entries: context overwrite
over the block-diagonal of the context block and the per-choice
lower-triangular blocks. -/
theorem build_mc_attention_mask (text : List Nat) (choices : List (List Nat))
    (unified : Bool) (mask_id sop_id : Nat) (r c : Nat) :
    (build_multiple_choice_sample text choices false unified mask_id sop_id).attention_mask.entry r c
      = (if r < (build_multiple_choice_sample text choices false unified mask_id sop_id).token.length
            ∧ c < (if mask_id ∈ text then text.length else text.length + 1) then 1
         else (blockDiag2 (onesF (if mask_id ∈ text then text.length else text.length + 1))
            (blockDiagL (choices.map (fun ch => trilF ch.length)))).entry r c) := by
  by_cases hbf : mask_id ∈ text
  · simp only [build_multiple_choice_sample, hbf, if_pos, if_true, if_false,
      Bool.false_eq_true]
    rw [mcFoldl_blocks]
    simp [hbf, blockDiagL]
  · simp only [build_multiple_choice_sample, hbf, if_neg, if_true, if_false,
      Bool.false_eq_true]
    rw [mcFoldl_blocks]
    simp [hbf, blockDiagL]

/-- **C7.** For every multi-choice encoding (multi-token mode, all
choices non-empty) with two distinct choices `i ≠ j`, every
attention-mask entry whose row lies in choice `i`'s recorded target span
and whose column lies in choice `j`'s span is 0 (no visibility); every
row of the sequence has full visibility of the shared-context columns
`[:, :division]`; and each choice's own span is lower-triangular (causal)
within itself. -/
theorem C7_block_diagonal (text : List Nat) (choices : List (List Nat))
    (unified : Bool) (mask_id sop_id : Nat) (s : MCSample) (division : Nat)
    (hne : ∀ ch ∈ choices, ch ≠ [])
    (hs : s = build_multiple_choice_sample text choices false unified mask_id sop_id)
    (hdiv : division = if mask_id ∈ text then text.length else text.length + 1) :
    (∀ i j, i < choices.length → j < choices.length → i ≠ j →
      ∀ r ∈ s.choice_target_id.getD i [], ∀ c ∈ s.choice_target_id.getD j [],
        s.attention_mask.entry r c = 0)
    ∧ (∀ r, r < s.token.length → ∀ c, c < division →
        s.attention_mask.entry r c = 1)
    ∧ (∀ i, i < choices.length →
        ∀ r ∈ s.choice_target_id.getD i [], ∀ c ∈ s.choice_target_id.getD i [],
          s.attention_mask.entry r c = if c ≤ r then 1 else 0) := by
  subst hs
  subst hdiv
  have hcore := mc_mask_core (if mask_id ∈ text then text.length else text.length + 1)
    (build_multiple_choice_sample text choices false unified mask_id sop_id).token.length
    choices hne
  refine ⟨?_, ?_, ?_⟩
  · intro i j hi hj hij r hr c hc
    rw [build_mc_choice_target_id] at hr hc
    rw [build_mc_attention_mask]
    exact hcore.1 i j hi hj hij r hr c hc
  · intro r hr c hc
    rw [build_mc_attention_mask]
    exact hcore.2.1 r hr c hc
  · intro i hi r hr c hc
    rw [build_mc_choice_target_id] at hr hc
    rw [build_mc_attention_mask]
    exact hcore.2.2 i hi r hr c hc

/-- Witness for C7 at context `[5, 6]`, choices `[[1, 2], [3, 4, 5]]`
(prefix length 3; spans `[3, 4]` and `[5, 6, 7]`): a row of choice 0
cannot see a column of choice 1, every row sees context column 0, and
within choice 1 the span is causal. -/
theorem C7_block_diagonal_witness :
    (build_multiple_choice_sample [5, 6] [[1, 2], [3, 4, 5]] false false 100 102).attention_mask.entry 3 5 = 0
    ∧ (build_multiple_choice_sample [5, 6] [[1, 2], [3, 4, 5]] false false 100 102).attention_mask.entry 7 0 = 1
    ∧ (build_multiple_choice_sample [5, 6] [[1, 2], [3, 4, 5]] false false 100 102).attention_mask.entry 5 6 = 0 := by
  have h := C7_block_diagonal [5, 6] [[1, 2], [3, 4, 5]] false 100 102 _ _
    (by decide) rfl rfl
  refine ⟨h.1 0 1 (by decide) (by decide) (by decide) 3 ?_ 5 ?_,
    h.2.1 7 ?_ 0 (by decide),
    (h.2.2 1 (by decide) 5 ?_ 6 ?_).trans (by decide)⟩
  · rw [build_mc_choice_target_id]; decide
  · rw [build_mc_choice_target_id]; decide
  · show 7 < (build_multiple_choice_sample [5, 6] [[1, 2], [3, 4, 5]] false false 100 102).token.length
    decide
  · rw [build_mc_choice_target_id]; decide
  · rw [build_mc_choice_target_id]; decide

/-- `x < 0.5` on a natural-valued entry holds exactly for 0. -/
theorem lt_half_eq_zero (v : Nat) : lt_half v = true ↔ v = 0 := by
  simp only [lt_half, decide_eq_true_eq]
  constructor
  · intro h
    by_contra hv
    have h1 : 1 ≤ v := Nat.one_le_iff_ne_zero.2 hv
    have h2 : (1 : ℚ) ≤ (v : ℚ) := by exact_mod_cast h1
    linarith
  · intro h
    subst h
    norm_num

/-- Every successfully built generation item's boolean mask is the
`< 0.5` comparison of the visibility matrix at the item's context
length. -/
theorem build_gen_ok_mask (text : List Nat) (max_seq_length : Nat)
    (use_task_mask unidirectional : Bool) (mask_id_cmd gmask_id sop_id : Nat)
    (s : GenSample)
    (h : build_generation_sample text max_seq_length use_task_mask unidirectional
          mask_id_cmd gmask_id sop_id = .ok s) :
    ∀ r c, s.attention_mask r c
      = lt_half ((gen_visibility max_seq_length s.context_length unidirectional).entry r c) := by
  by_cases hbf : (if use_task_mask then gmask_id else mask_id_cmd) ∈ text
  · cases use_task_mask
    · cases unidirectional
      · simp only [Bool.false_eq_true, if_false] at hbf
        simp [build_generation_sample, hbf] at h
        split at h
        · simp at h
        · injection h with h'
          subst h'
          intro r c
          rfl
      · simp only [Bool.false_eq_true, if_false] at hbf
        simp [build_generation_sample, hbf] at h
    · simp only [if_pos] at hbf
      cases unidirectional <;> simp [build_generation_sample, hbf] at h
  · cases use_task_mask
    · simp only [Bool.false_eq_true, if_false] at hbf
      cases unidirectional
      · simp [build_generation_sample, hbf] at h
        split at h
        · simp at h
        · injection h with h'
          subst h'
          intro r c
          rfl
      · simp [build_generation_sample, hbf] at h
        split at h
        · simp at h
        · injection h with h'
          subst h'
          intro r c
          rfl
    · simp only [if_pos] at hbf
      cases unidirectional
      · simp [build_generation_sample, hbf] at h
        split at h
        · simp at h
        · injection h with h'
          subst h'
          intro r c
          rfl
      · simp [build_generation_sample, hbf] at h
        split at h
        · simp at h
        · injection h with h'
          subst h'
          intro r c
          rfl

/-- An element of `l.zip (l.map g)` pairs each element with its image. -/
theorem mem_zip_map_self {α β : Type} (l : List α) (g : α → β) (p : α × β)
    (hp : p ∈ l.zip (l.map g)) : p.2 = g p.1 := by
  induction l with
  | nil => simp at hp
  | cons a t ih =>
    simp only [List.map_cons, List.zip_cons_cons, List.mem_cons] at hp
    rcases hp with rfl | hp
    · rfl
    · exact ih hp

/-- The collated boolean masks are the `< 0.5` images of the padded
visibility matrices, sample by sample. -/
theorem collate_attention_mask_eq (samples : List MCSample) (flag : Bool) :
    (collate_fn samples flag).attention_mask
      = samples.map (fun s => fun r c =>
          lt_half ((pad_batch s.token s.position_id s.attention_mask
            (collate_length_to_pad samples)).2.2.entry r c)) := by
  simp only [collate_fn, List.map_map]
  rfl

/-- **C10.** At both public interfaces — a generation item and a
collated multi-choice batch — the boolean tensor handed to the model is
the constructed 0/1 visibility matrix compared `< 0.5`: an entry is
`true` exactly where the visibility entry is 0 (attention blocked), so
the fully visible context block appears as all-`false` in the delivered
tensor. -/
theorem C10_delivered_mask_is_complement :
    (∀ (text : List Nat) (max_seq_length : Nat)
       (use_task_mask unidirectional : Bool) (mask_id_cmd gmask_id sop_id : Nat)
       (s : GenSample),
       build_generation_sample text max_seq_length use_task_mask unidirectional
          mask_id_cmd gmask_id sop_id = .ok s →
       ∀ r c, (s.attention_mask r c = true
          ↔ (gen_visibility max_seq_length s.context_length unidirectional).entry r c = 0))
    ∧ (∀ (text : List Nat) (max_seq_length : Nat)
       (use_task_mask : Bool) (mask_id_cmd gmask_id sop_id : Nat) (s : GenSample),
       build_generation_sample text max_seq_length use_task_mask false
          mask_id_cmd gmask_id sop_id = .ok s →
       ∀ r c, r < s.context_length - 1 → c < s.context_length - 1 →
         s.attention_mask r c = false)
    ∧ (∀ (samples : List MCSample) (flag : Bool),
       ∀ p ∈ samples.zip ((collate_fn samples flag).attention_mask),
       ∀ r c, (p.2 r c = true
          ↔ (pad_batch p.1.token p.1.position_id p.1.attention_mask
              (collate_length_to_pad samples)).2.2.entry r c = 0))
    ∧ (∀ (samples : List MCSample) (flag : Bool),
       ∀ p ∈ samples.zip ((collate_fn samples flag).attention_mask),
       ∀ r c, p.1.attention_mask.entry r c = 1 →
         r < p.1.attention_mask.rows → c < p.1.attention_mask.cols →
         p.2 r c = false) := by
  have hgen : ∀ (text : List Nat) (max_seq_length : Nat)
      (use_task_mask unidirectional : Bool) (mask_id_cmd gmask_id sop_id : Nat)
      (s : GenSample),
      build_generation_sample text max_seq_length use_task_mask unidirectional
        mask_id_cmd gmask_id sop_id = .ok s →
      ∀ r c, (s.attention_mask r c = true
        ↔ (gen_visibility max_seq_length s.context_length unidirectional).entry r c = 0) := by
    intro text max utm uni m g sop s h r c
    rw [build_gen_ok_mask text max utm uni m g sop s h r c]
    exact lt_half_eq_zero _
  have hmc : ∀ (samples : List MCSample) (flag : Bool),
      ∀ p ∈ samples.zip ((collate_fn samples flag).attention_mask),
      ∀ r c, (p.2 r c = true
        ↔ (pad_batch p.1.token p.1.position_id p.1.attention_mask
            (collate_length_to_pad samples)).2.2.entry r c = 0) := by
    intro samples flag p hp r c
    rw [collate_attention_mask_eq] at hp
    rw [mem_zip_map_self samples _ p hp]
    exact lt_half_eq_zero _
  refine ⟨hgen, ?_, hmc, ?_⟩
  · intro text max utm m g sop s h r c hr hc
    have hiff := hgen text max utm false m g sop s h r c
    have hvis : (gen_visibility max s.context_length false).entry r c = 1 := by
      simp [gen_visibility, hr, hc]
    rcases Bool.eq_false_or_eq_true (s.attention_mask r c) with hb | hb
    · exact absurd (hiff.1 hb) (by omega)
    · exact hb
  · intro samples flag p hp r c hone hr hc
    have hiff := hmc samples flag p hp r c
    have hpad : (pad_batch p.1.token p.1.position_id p.1.attention_mask
        (collate_length_to_pad samples)).2.2.entry r c = 1 := by
      simp [pad_batch, hr, hc, hone]
    rcases Bool.eq_false_or_eq_true (p.2 r c) with hb | hb
    · exact absurd (hiff.1 hb) (by omega)
    · exact hb

/-- Witness for C10: for the concrete bidirectional generation item with
`context_length = 5`, entry `(0, 6)` of the delivered mask is `true` (the
visibility there is 0), and the context-block entry `(0, 3)` is
`false`. -/
theorem C10_delivered_mask_is_complement_witness :
    ∃ s : GenSample,
      build_generation_sample [5, 6, 7] 8 false false 100 101 102 = .ok s ∧
      (s.attention_mask 0 6 = true
        ↔ (gen_visibility 8 s.context_length false).entry 0 6 = 0) ∧
      s.attention_mask 0 3 = false := by
  refine ⟨_, rfl, ?_, ?_⟩
  · exact C10_delivered_mask_is_complement.1 [5, 6, 7] 8 false false 100 101 102 _ rfl 0 6
  · exact C10_delivered_mask_is_complement.2.1 [5, 6, 7] 8 false 100 101 102 _ rfl 0 3
      (by decide) (by decide)
